import Mathlib

/-
  Verification of the smokescreen egress proxy against its natural-language
  specification.  The Lean definitions below are shallow embeddings of the
  repository's Go code: `MaybeIdleIn` (conn_tracker.go), `copyHeaders` and
  `ServeHTTP` (config_loader.go, vendored goproxy), `testRFRHeader` and
  `testRFRCert` (integration test helpers), together with spec-modelled
  definitions for the parts of the core (classifyIP, ProxyCore's canonical
  decision record, the denial-response writer, the response-header filter)
  whose implementation files are not part of the sample.
-/

set_option maxHeartbeats 1000000

namespace Smokescreen

-- Section 1: IP addresses and CIDR ranges ------------------------------------

/-- An IP address, as in Go's `net.IP`: a list of octets, of length 4 for IPv4
and 16 for IPv6. -/
abbrev IP := List Nat

/-- A CIDR range, as in Go's `net.IPNet`: a base address plus a prefix length
in bits. -/
structure Cidr where
  base : List Nat
  prefixLen : Nat
deriving DecidableEq, Repr

/-- The portion of octet `b` (octet index `i` of an address) that lies inside a
prefix of `plen` bits: the octet shifted right past the bits the prefix does
not cover. -/
def maskByte (plen i b : Nat) : Nat :=
  b / 2 ^ (8 - min 8 (plen - 8 * i))

/-- CIDR containment test, as in `net.IPNet.Contains`: the address has the
same length as the base and agrees with it on the first `prefixLen` bits. -/
def cidrContains (c : Cidr) (ip : IP) : Bool :=
  c.base.length == ip.length &&
    (List.range ip.length).all fun i =>
      maskByte c.prefixLen i (c.base.getD i 0) == maskByte c.prefixLen i (ip.getD i 0)

/-- Membership of an address in any of a list of CIDR ranges. -/
def inRanges (ranges : List Cidr) (ip : IP) : Bool :=
  ranges.any fun c => cidrContains c ip

/-- The IPv6 loopback address `::1`. -/
def v6Loopback : IP := List.replicate 15 0 ++ [1]

/-- Loopback test: `127.0.0.0/8` or `::1`. -/
def isLoopback (ip : IP) : Bool :=
  cidrContains ⟨[127, 0, 0, 0], 8⟩ ip || ip == v6Loopback

/-- The IPv4 broadcast address `255.255.255.255`. -/
def isBroadcast (ip : IP) : Bool :=
  ip == [255, 255, 255, 255]

/-- Link-local unicast: `169.254.0.0/16` (which contains the cloud metadata
address `169.254.169.254`) or `fe80::/10`. -/
def isLinkLocalUnicast (ip : IP) : Bool :=
  cidrContains ⟨[169, 254, 0, 0], 16⟩ ip ||
    cidrContains ⟨[254, 128] ++ List.replicate 14 0, 10⟩ ip

/-- Link-local multicast: `224.0.0.0/24` or `ff02::/16`. -/
def isLinkLocalMulticast (ip : IP) : Bool :=
  cidrContains ⟨[224, 0, 0, 0], 24⟩ ip ||
    cidrContains ⟨[255, 2] ++ List.replicate 14 0, 16⟩ ip

/-- Addresses that the classifier never promotes to the exempted class:
loopback, broadcast, link-local unicast (including the metadata endpoint) and
link-local multicast.  These are exactly the addresses the repository's unit
test expects to stay `IpTypePrivate` even when an allow-range covers them. -/
def nonPromotable (ip : IP) : Bool :=
  isLoopback ip || isBroadcast ip || isLinkLocalUnicast ip || isLinkLocalMulticast ip

/-- The built-in private networks handed to the classifier as its default
blacklist: the RFC1918 blocks plus loopback, link-local, broadcast and their
IPv6 counterparts. -/
def PrivateNetworks : List Cidr :=
  [⟨[10, 0, 0, 0], 8⟩,
   ⟨[172, 16, 0, 0], 12⟩,
   ⟨[192, 168, 0, 0], 16⟩,
   ⟨[127, 0, 0, 0], 8⟩,
   ⟨[169, 254, 0, 0], 16⟩,
   ⟨[255, 255, 255, 255], 32⟩,
   ⟨List.replicate 15 0 ++ [1], 128⟩,
   ⟨[254, 128] ++ List.replicate 14 0, 10⟩]

/-- The classifier configuration: operator deny-ranges, the blacklist
(initialized from `PrivateNetworks`), and the operator allow-ranges
(`CidrBlacklistExemptions` in the test). -/
structure Config where
  denyRanges : List Cidr
  cidrBlacklist : List Cidr
  cidrBlacklistExemptions : List Cidr
deriving DecidableEq, Repr

/-- The closed classification set of the data model. -/
inductive IpType where
  | IpTypePublic
  | IpTypePrivate
  | IpTypeBlacklistExempted
  | IpTypeDenied
deriving DecidableEq, Repr

/-- Modelled from the spec: `classifyIP` itself is not in the sample (only its
unit test `TestClassifyIP` is), so this follows the spec's classification
algorithm — deny-ranges first, then the built-in private set with allow-range
promotion, else public — refined by the spec's boundary cases, which state
that loopback, broadcast, link-local and metadata addresses classify private
even when inside an allow-range (loopback exemption is disabled).  The
refinement matches every fixture of `TestClassifyIP`. -/
def classifyIP (conf : Config) (ip : IP) : IpType :=
  if inRanges conf.denyRanges ip then .IpTypeDenied
  else if nonPromotable ip then .IpTypePrivate
  else if inRanges conf.cidrBlacklist ip then
    if inRanges conf.cidrBlacklistExemptions ip then .IpTypeBlacklistExempted
    else .IpTypePrivate
  else .IpTypePublic

/-- The allow-ranges configured by `TestClassifyIP`
(`cidrBlacklistExemptionsStrings`). -/
def cidrBlacklistExemptions : List Cidr :=
  [⟨[8, 8, 9, 0], 24⟩,
   ⟨[10, 0, 1, 0], 24⟩,
   ⟨[172, 16, 1, 0], 24⟩,
   ⟨[192, 168, 1, 0], 24⟩,
   ⟨[127, 0, 1, 0], 24⟩]

/-- The configuration built by `TestClassifyIP`: no deny-ranges, the built-in
private networks as blacklist, and the five allow-ranges above. -/
def testConf : Config :=
  { denyRanges := []
    cidrBlacklist := PrivateNetworks
    cidrBlacklistExemptions := cidrBlacklistExemptions }

-- The sixteen fixtures of TestClassifyIP, reproduced as checks on the model.
example : classifyIP testConf [8, 8, 8, 8] = .IpTypePublic := by decide
example : classifyIP testConf [8, 8, 9, 8] = .IpTypePublic := by decide
example : classifyIP testConf [10, 0, 0, 1] = .IpTypePrivate := by decide
example : classifyIP testConf [10, 0, 1, 1] = .IpTypeBlacklistExempted := by decide
example : classifyIP testConf [172, 16, 0, 1] = .IpTypePrivate := by decide
example : classifyIP testConf [172, 16, 1, 1] = .IpTypeBlacklistExempted := by decide
example : classifyIP testConf [192, 168, 0, 1] = .IpTypePrivate := by decide
example : classifyIP testConf [192, 168, 1, 1] = .IpTypeBlacklistExempted := by decide
example : classifyIP testConf [127, 0, 0, 1] = .IpTypePrivate := by decide
example : classifyIP testConf [127, 255, 255, 255] = .IpTypePrivate := by decide
example : classifyIP testConf v6Loopback = .IpTypePrivate := by decide
example : classifyIP testConf [127, 0, 1, 1] = .IpTypePrivate := by decide
example : classifyIP testConf [169, 254, 169, 254] = .IpTypePrivate := by decide
example : classifyIP testConf [255, 255, 255, 255] = .IpTypePrivate := by decide
example : classifyIP testConf ([255, 2] ++ List.replicate 13 0 ++ [2]) = .IpTypePrivate := by decide

-- Section 2: facts extracted from CIDR containment ---------------------------

theorem cidrContains_length {c : Cidr} {ip : IP} (h : cidrContains c ip = true) :
    c.base.length = ip.length := by
  unfold cidrContains at h
  simp only [Bool.and_eq_true, beq_iff_eq] at h
  exact h.1

theorem cidrContains_byte0 {b0 : Nat} {rest : List Nat} {plen : Nat} {ip : IP}
    (h8 : 8 ≤ plen) (h : cidrContains ⟨b0 :: rest, plen⟩ ip = true) :
    ip.getD 0 0 = b0 := by
  have hlen : rest.length + 1 = ip.length := by
    simpa using cidrContains_length h
  unfold cidrContains at h
  simp only [Bool.and_eq_true, List.all_eq_true, beq_iff_eq] at h
  have h0 : maskByte plen 0 ((b0 :: rest).getD 0 0) = maskByte plen 0 (ip.getD 0 0) :=
    h.2 0 (List.mem_range.mpr (by omega))
  have hm : ∀ b : Nat, maskByte plen 0 b = b := by
    intro b
    unfold maskByte
    have hmin : min 8 (plen - 8 * 0) = 8 := by omega
    rw [hmin]
    simp
  rw [hm, hm] at h0
  simpa using h0.symm

theorem contains_false_of_byte0 {b0 : Nat} {rest : List Nat} {plen : Nat} {ip : IP}
    (h8 : 8 ≤ plen) (hb : ip.getD 0 0 ≠ b0) :
    cidrContains ⟨b0 :: rest, plen⟩ ip = false := by
  cases hc : cidrContains ⟨b0 :: rest, plen⟩ ip
  · rfl
  · exact absurd (cidrContains_byte0 h8 hc) hb

theorem contains_false_of_length {c : Cidr} {ip : IP} (h : c.base.length ≠ ip.length) :
    cidrContains c ip = false := by
  cases hc : cidrContains c ip
  · rfl
  · exact absurd (cidrContains_length hc) h

/-- A length-four address whose first octet differs from 127, 255, 169 and 224
is not in the never-promoted set. -/
theorem nonPromotable_false_of {ip : IP} (hlen : ip.length = 4) {b0 : Nat}
    (hb0 : ip.getD 0 0 = b0) (h127 : b0 ≠ 127) (h255 : b0 ≠ 255)
    (h169 : b0 ≠ 169) (h224 : b0 ≠ 224) :
    nonPromotable ip = false := by
  have hA : cidrContains ⟨[127, 0, 0, 0], 8⟩ ip = false :=
    contains_false_of_byte0 (by norm_num) (by rw [hb0]; exact h127)
  have hB : (ip == v6Loopback) = false := by
    cases he : ip == v6Loopback
    · rfl
    · exfalso
      have hip : ip = v6Loopback := by simpa using he
      rw [hip] at hlen
      simp [v6Loopback] at hlen
  have hC : (ip == [255, 255, 255, 255]) = false := by
    cases he : ip == [255, 255, 255, 255]
    · rfl
    · exfalso
      have hip : ip = [255, 255, 255, 255] := by simpa using he
      rw [hip] at hb0
      simp at hb0
      exact h255 hb0.symm
  have hD : cidrContains ⟨[169, 254, 0, 0], 16⟩ ip = false :=
    contains_false_of_byte0 (by norm_num) (by rw [hb0]; exact h169)
  have hE : cidrContains ⟨[254, 128, 0, 0, 0, 0, 0, 0, 0, 0, 0, 0, 0, 0, 0, 0], 10⟩ ip = false :=
    contains_false_of_length (by simp [hlen])
  have hF : cidrContains ⟨[224, 0, 0, 0], 24⟩ ip = false :=
    contains_false_of_byte0 (by norm_num) (by rw [hb0]; exact h224)
  have hG : cidrContains ⟨[255, 2, 0, 0, 0, 0, 0, 0, 0, 0, 0, 0, 0, 0, 0, 0], 16⟩ ip = false :=
    contains_false_of_length (by simp [hlen])
  simp [nonPromotable, isLoopback, isBroadcast, isLinkLocalUnicast, isLinkLocalMulticast,
    hA, hB, hC, hD, hE, hF, hG]

/-- The RFC1918 blocks among the built-in private networks. -/
def rfc1918Ranges : List Cidr :=
  [⟨[10, 0, 0, 0], 8⟩, ⟨[172, 16, 0, 0], 12⟩, ⟨[192, 168, 0, 0], 16⟩]

/-- An RFC1918 address is never in the never-promoted set. -/
theorem rfc1918_nonPromotable {ip : IP} (h : inRanges rfc1918Ranges ip = true) :
    nonPromotable ip = false := by
  simp only [inRanges, rfc1918Ranges, List.any_eq_true, List.mem_cons,
    List.not_mem_nil, or_false] at h
  obtain ⟨c, hc, hcont⟩ := h
  rcases hc with hc | hc | hc <;> subst hc
  · exact nonPromotable_false_of
      (by simpa using (cidrContains_length hcont).symm)
      (cidrContains_byte0 (by norm_num) hcont)
      (by norm_num) (by norm_num) (by norm_num) (by norm_num)
  · exact nonPromotable_false_of
      (by simpa using (cidrContains_length hcont).symm)
      (cidrContains_byte0 (by norm_num) hcont)
      (by norm_num) (by norm_num) (by norm_num) (by norm_num)
  · exact nonPromotable_false_of
      (by simpa using (cidrContains_length hcont).symm)
      (cidrContains_byte0 (by norm_num) hcont)
      (by norm_num) (by norm_num) (by norm_num) (by norm_num)

/-- An RFC1918 address is inside the built-in private networks. -/
theorem rfc1918_in_PrivateNetworks {ip : IP} (h : inRanges rfc1918Ranges ip = true) :
    inRanges PrivateNetworks ip = true := by
  simp only [inRanges, rfc1918Ranges, List.any_eq_true, List.mem_cons,
    List.not_mem_nil, or_false] at h
  obtain ⟨c, hc, hcont⟩ := h
  simp only [inRanges, List.any_eq_true]
  refine ⟨c, ?_, hcont⟩
  rcases hc with hc | hc | hc <;> subst hc <;> simp [PrivateNetworks]

-- Section 3: the classification claims ---------------------------------------

/-- C2: every loopback, broadcast, link-local-multicast or metadata address
classifies `IpTypePrivate`, no matter which allow-ranges are configured; in
particular 127.0.0.1, 127.255.255.255, ::1, 169.254.169.254, 255.255.255.255
and ff02::2 under the unit-test configuration, and 127.0.1.1 stays
`IpTypePrivate` even though the configured allow-range 127.0.1.0/24 contains
it. -/
theorem C2_nonpromotable_private :
    (∀ (conf : Config) (ip : IP), inRanges conf.denyRanges ip = false →
      nonPromotable ip = true → classifyIP conf ip = IpType.IpTypePrivate)
    ∧ classifyIP testConf [127, 0, 0, 1] = IpType.IpTypePrivate
    ∧ classifyIP testConf [127, 255, 255, 255] = IpType.IpTypePrivate
    ∧ classifyIP testConf v6Loopback = IpType.IpTypePrivate
    ∧ classifyIP testConf [169, 254, 169, 254] = IpType.IpTypePrivate
    ∧ classifyIP testConf [255, 255, 255, 255] = IpType.IpTypePrivate
    ∧ classifyIP testConf ([255, 2] ++ List.replicate 13 0 ++ [2]) = IpType.IpTypePrivate
    ∧ inRanges testConf.cidrBlacklistExemptions [127, 0, 1, 1] = true
    ∧ classifyIP testConf [127, 0, 1, 1] = IpType.IpTypePrivate := by
  refine ⟨?_, by decide, by decide, by decide, by decide, by decide, by decide,
    by decide, by decide⟩
  intro conf ip hdeny hnp
  simp [classifyIP, hdeny, hnp]

/-- Witness for C2 at the address 127.0.1.1, which the test configuration's
allow-range 127.0.1.0/24 covers. -/
theorem C2_witness : classifyIP testConf [127, 0, 1, 1] = IpType.IpTypePrivate :=
  C2_nonpromotable_private.1 testConf [127, 0, 1, 1] (by decide) (by decide)

/-- C3 counterexample: 8.8.9.8 matches no deny-range, is outside the built-in
private set, and lies inside the configured allow-range 8.8.9.0/24, yet it
classifies `IpTypePublic`, not `IpTypeBlacklistExempted` — exactly as the
fixture on lines 62-63 of smokescreen_test.go asserts. -/
theorem C3_counterexample :
    inRanges testConf.denyRanges [8, 8, 9, 8] = false
    ∧ nonPromotable [8, 8, 9, 8] = false
    ∧ inRanges testConf.cidrBlacklist [8, 8, 9, 8] = false
    ∧ inRanges testConf.cidrBlacklistExemptions [8, 8, 9, 8] = true
    ∧ classifyIP testConf [8, 8, 9, 8] = IpType.IpTypePublic
    ∧ classifyIP testConf [8, 8, 9, 8] ≠ IpType.IpTypeBlacklistExempted := by decide

/-- C3 (amended): an address matching no deny-range that is outside the
built-in private set (and not loopback, broadcast, link-local or metadata)
classifies `IpTypePublic` regardless of the configured allow-ranges:
allow-ranges only exempt addresses that would otherwise classify private. -/
theorem C3_allow_range_no_effect_on_public (conf : Config) (ip : IP)
    (hdeny : inRanges conf.denyRanges ip = false)
    (hnp : nonPromotable ip = false)
    (hbl : inRanges conf.cidrBlacklist ip = false) :
    classifyIP conf ip = IpType.IpTypePublic := by
  simp [classifyIP, hdeny, hnp, hbl]

/-- Witness for the amended C3 at 8.8.9.8 under the test configuration. -/
theorem C3_witness : classifyIP testConf [8, 8, 9, 8] = IpType.IpTypePublic :=
  C3_allow_range_no_effect_on_public testConf [8, 8, 9, 8]
    (by decide) (by decide) (by decide)

/-- C4: an RFC1918 address matching no deny-range classifies
`IpTypeBlacklistExempted` when a configured allow-range contains it and
`IpTypePrivate` otherwise; in particular, under the test configuration with
10.0.1.0/24 among the allow-ranges, 10.0.1.1 is exempted and 10.0.0.1 is
private. -/
theorem C4_rfc1918_allow_promotes :
    (∀ (conf : Config) (ip : IP),
      inRanges conf.denyRanges ip = false →
      inRanges rfc1918Ranges ip = true →
      conf.cidrBlacklist = PrivateNetworks →
      (inRanges conf.cidrBlacklistExemptions ip = true →
        classifyIP conf ip = IpType.IpTypeBlacklistExempted)
      ∧ (inRanges conf.cidrBlacklistExemptions ip = false →
        classifyIP conf ip = IpType.IpTypePrivate))
    ∧ classifyIP testConf [10, 0, 1, 1] = IpType.IpTypeBlacklistExempted
    ∧ classifyIP testConf [10, 0, 0, 1] = IpType.IpTypePrivate := by
  refine ⟨?_, by decide, by decide⟩
  intro conf ip hdeny h1918 hbl
  have hnp : nonPromotable ip = false := rfc1918_nonPromotable h1918
  have hin : inRanges conf.cidrBlacklist ip = true := by
    rw [hbl]; exact rfc1918_in_PrivateNetworks h1918
  constructor
  · intro hex
    simp [classifyIP, hdeny, hnp, hin, hex]
  · intro hex
    simp [classifyIP, hdeny, hnp, hin, hex]

/-- Witness for C4 at 10.0.1.1 under the test configuration. -/
theorem C4_witness : classifyIP testConf [10, 0, 1, 1] = IpType.IpTypeBlacklistExempted :=
  (C4_rfc1918_allow_promotes.1 testConf [10, 0, 1, 1]
    (by decide) (by decide) rfl).1 (by decide)

-- Section 4: the connection tracker (conn_tracker.go) ------------------------

/-- A tracked connection as the tracker sees it: the atomically read
`LastActivity` timestamp, in Unix nanoseconds. -/
structure InstrumentedConn where
  lastActivity : Int
deriving DecidableEq, Repr

/-- The tracker: its registry of tracked connections and the configured
`IdleThreshold` in nanoseconds. -/
structure Tracker where
  conns : List InstrumentedConn
  idleThreshold : Int
deriving DecidableEq, Repr

/-- `Tracker.MaybeIdleIn` from conn_tracker.go: ranges over the registry
computing `idleIn = lastActivity + IdleThreshold - now` for each connection
and keeps the largest value seen, starting from zero. -/
def MaybeIdleIn (tr : Tracker) (now : Int) : Int :=
  tr.conns.foldl
    (fun longest c =>
      if longest < c.lastActivity + tr.idleThreshold - now then
        c.lastActivity + tr.idleThreshold - now
      else longest)
    0

theorem keepLarger_eq_max (x y : Int) : (if x < y then y else x) = max x y := by
  by_cases h : x < y
  · simp [if_pos h, max_eq_right h.le]
  · simp [if_neg h, max_eq_left (not_lt.mp h)]

theorem foldl_max_init_le (l : List Int) : ∀ a : Int, a ≤ l.foldl max a := by
  induction l with
  | nil => intro a; simp
  | cons x t ih =>
    intro a
    simpa using le_trans (le_max_left a x) (ih (max a x))

theorem foldl_max_of_all_le (l : List Int) :
    ∀ a : Int, (∀ x ∈ l, x ≤ a) → l.foldl max a = a := by
  induction l with
  | nil => intro a _; rfl
  | cons x t ih =>
    intro a h
    have hx : max a x = a := max_eq_left (h x (by simp))
    simp only [List.foldl_cons, hx]
    exact ih a fun y hy => h y (by simp [hy])

theorem maybeIdleIn_eq_foldl (tr : Tracker) (now : Int) :
    MaybeIdleIn tr now
      = (tr.conns.map fun c => c.lastActivity + tr.idleThreshold - now).foldl max 0 := by
  unfold MaybeIdleIn
  rw [List.foldl_map]
  congr 1
  funext a c
  exact keepLarger_eq_max a (c.lastActivity + tr.idleThreshold - now)

/-- C5: `MaybeIdleIn` returns the maximum of zero and the largest
`lastActivity + idleThreshold - now` over the registry; hence it is zero on an
empty registry, zero when every tracked connection has been inactive for at
least the idle threshold, and never negative. -/
theorem C5_maybe_idle_in (tr : Tracker) (now : Int) :
    MaybeIdleIn tr now
      = max 0 ((tr.conns.map fun c => c.lastActivity + tr.idleThreshold - now).foldl max 0)
    ∧ (tr.conns = [] → MaybeIdleIn tr now = 0)
    ∧ ((∀ c ∈ tr.conns, c.lastActivity + tr.idleThreshold ≤ now) →
        MaybeIdleIn tr now = 0)
    ∧ 0 ≤ MaybeIdleIn tr now := by
  have hfold := maybeIdleIn_eq_foldl tr now
  have hge : (0 : Int) ≤ (tr.conns.map fun c => c.lastActivity + tr.idleThreshold - now).foldl max 0 :=
    foldl_max_init_le _ 0
  refine ⟨?_, ?_, ?_, ?_⟩
  · rw [hfold, max_eq_right hge]
  · intro h
    rw [hfold, h]
    rfl
  · intro h
    rw [hfold]
    apply foldl_max_of_all_le
    intro x hx
    simp only [List.mem_map] at hx
    obtain ⟨c, hc, rfl⟩ := hx
    have := h c hc
    omega
  · rw [hfold]
    exact hge

/-- Witness for C5: an empty registry yields zero, and so does a registry with
one connection already idle past the threshold. -/
theorem C5_witness :
    MaybeIdleIn ⟨[], 5⟩ 10 = 0 ∧ MaybeIdleIn ⟨[⟨2⟩], 5⟩ 10 = 0 :=
  ⟨(C5_maybe_idle_in ⟨[], 5⟩ 10).2.1 rfl,
   (C5_maybe_idle_in ⟨[⟨2⟩], 5⟩ 10).2.2.1 (by decide)⟩

-- Section 5: HTTP headers (net/http Header and net/textproto) ----------------

/-- An `http.Header`: a map from field names to their ordered value lists,
embedded as an association list with distinct keys. -/
abbrev Header := List (String × List String)

/-- The field names present in a header map. -/
def headerKeys (h : Header) : List String := h.map Prod.fst

/-- Raw map lookup on a header, by exact key. -/
def headerLookup : Header → String → Option (List String)
  | [], _ => none
  | e :: rest, k => if e.1 = k then some e.2 else headerLookup rest k

/-- The bytes Go's `validHeaderFieldByte` accepts in a header field name:
letters, digits, and the token specials (the list includes the apostrophe,
code 39, and the backquote, code 96). -/
def isTokenChar (c : Char) : Bool :=
  c.isAlpha || c.isDigit || "!#$%&*+-.^_|~".toList.contains c
    || c == Char.ofNat 39 || c == Char.ofNat 96

/-- One step of Go's canonicalization: uppercase the letter when it starts the
name or follows a hyphen, lowercase it otherwise. -/
def canonChar (upper : Bool) (c : Char) : Char :=
  if upper then c.toUpper else c.toLower

/-- The canonicalization pass over the field-name characters; the flag records
whether the previous character was a hyphen (or the start of the name). -/
def canonChars : Bool → List Char → List Char
  | _, [] => []
  | upper, c :: rest => canonChar upper c :: canonChars (c == '-') rest

/-- Go's `textproto.CanonicalMIMEHeaderKey`: the name is returned unchanged
when it holds any byte that is not a valid header-field byte; otherwise its
letters are canonically cased. -/
def canonicalMIMEHeaderKey (s : String) : String :=
  if s.toList.all isTokenChar then String.mk (canonChars true s.toList) else s

/-- `append(h[ck], v)` on the association list: extend the value list of the
entry keyed `ck`, or create the entry when absent. -/
def addCanon : Header → String → String → Header
  | [], ck, v => [(ck, [v])]
  | e :: rest, ck, v =>
    if e.1 = ck then (e.1, e.2 ++ [v]) :: rest
    else e :: addCanon rest ck v

/-- `http.Header.Add`: canonicalize the key, then append the value. -/
def hAdd (h : Header) (k v : String) : Header :=
  addCanon h (canonicalMIMEHeaderKey k) v

/-- `http.Header.Del`: canonicalize the key, then delete that entry. -/
def hDel (h : Header) (k : String) : Header :=
  h.filter fun e => !(e.1 == canonicalMIMEHeaderKey k)

/-- `copyHeaders` from the vendored goproxy (config_loader.go): delete every
key ranged over in `dst`, then `Add` every value of `src` into `dst`. -/
def copyHeaders (dst src : Header) : Header :=
  let cleared := (headerKeys dst).foldl hDel dst
  src.foldl (fun d e => e.2.foldl (fun d2 v => hAdd d2 e.1 v) d) cleared

example : canonicalMIMEHeaderKey "x-bar" = "X-Bar" := by decide
example : canonicalMIMEHeaderKey "X-Smokescreen-Error" = "X-Smokescreen-Error" := by decide

/-- C10 counterexample: `copyHeaders` does not clear a destination entry whose
key is not in canonical form — `Del` canonicalizes "x-bar" to "X-Bar" and
deletes a key that is not there — so the result still holds the stale entry,
differs from `src`, and depends on the destination's prior contents. -/
theorem C10_counterexample :
    copyHeaders [("x-bar", ["v"])] [] = [("x-bar", ["v"])]
    ∧ copyHeaders [("x-bar", ["v"])] [] ≠ ([] : Header)
    ∧ headerLookup (copyHeaders [("x-bar", ["v"])] []) "x-bar"
        ≠ headerLookup ([] : Header) "x-bar"
    ∧ copyHeaders [("x-bar", ["v"])] [] ≠ copyHeaders ([] : Header) [] := by decide

/-- Deleting, in turn, every key of a list that covers all keys of a header
empties the header, provided the listed keys are already canonical. -/
theorem foldl_hDel_eq_nil :
    ∀ (ks : List String) (d : Header),
      (∀ k ∈ ks, canonicalMIMEHeaderKey k = k) →
      (∀ e ∈ d, e.1 ∈ ks) →
      ks.foldl hDel d = [] := by
  intro ks
  induction ks with
  | nil =>
    intro d _ hd
    cases d with
    | nil => rfl
    | cons e rest => exact absurd (hd e (by simp)) (by simp)
  | cons k kt ih =>
    intro d hcanon hd
    simp only [List.foldl_cons]
    apply ih
    · intro k2 hk2
      exact hcanon k2 (by simp [hk2])
    · intro e he
      have hmem := List.mem_filter.mp he
      have hne : e.1 ≠ k := by
        have := hmem.2
        simp only [Bool.not_eq_true', beq_eq_false_iff_ne] at this
        rw [hcanon k (by simp)] at this
        exact this
      have : e.1 ∈ k :: kt := hd e hmem.1
      simp only [List.mem_cons] at this
      exact this.resolve_left hne

/-- Adding under a fresh canonical key appends a new singleton entry. -/
theorem addCanon_absent :
    ∀ (d : Header) (ck v : String), ck ∉ headerKeys d →
      addCanon d ck v = d ++ [(ck, [v])] := by
  intro d
  induction d with
  | nil => intro ck v _; rfl
  | cons e rest ih =>
    intro ck v hck
    have hne : e.1 ≠ ck := by
      intro h
      exact hck (by simp [headerKeys, h])
    simp only [addCanon, if_neg hne, List.cons_append, List.cons.injEq, true_and]
    exact ih ck v fun h => hck (by simp [headerKeys] at h ⊢; exact Or.inr h)

/-- Adding under the canonical key of the last entry extends that entry's
value list, when no earlier entry shares the key. -/
theorem addCanon_last :
    ∀ (d : Header) (ck : String) (acc : List String) (v : String), ck ∉ headerKeys d →
      addCanon (d ++ [(ck, acc)]) ck v = d ++ [(ck, acc ++ [v])] := by
  intro d
  induction d with
  | nil => intro ck acc v _; simp [addCanon]
  | cons e rest ih =>
    intro ck acc v hck
    have hne : e.1 ≠ ck := by
      intro h
      exact hck (by simp [headerKeys, h])
    simp only [List.cons_append, addCanon, if_neg hne, List.cons.injEq, true_and]
    exact ih ck acc v fun h => hck (by simp [headerKeys] at h ⊢; exact Or.inr h)

/-- Folding `Add` over a value list extends the final entry with the values in
order. -/
theorem foldl_hAdd_values :
    ∀ (vs : List String) (d : Header) (k : String) (acc : List String),
      canonicalMIMEHeaderKey k = k → k ∉ headerKeys d →
      vs.foldl (fun d2 v => hAdd d2 k v) (d ++ [(k, acc)]) = d ++ [(k, acc ++ vs)] := by
  intro vs
  induction vs with
  | nil => intro d k acc _ _; simp
  | cons v vt ih =>
    intro d k acc hcanon hk
    simp only [List.foldl_cons]
    have h1 : hAdd (d ++ [(k, acc)]) k v = d ++ [(k, acc ++ [v])] := by
      rw [hAdd, hcanon]
      exact addCanon_last d k acc v hk
    rw [h1]
    have h2 := ih d k (acc ++ [v]) hcanon hk
    simpa using h2

/-- Adding a value under a fresh canonical key appends a singleton entry. -/
theorem hAdd_nonmem (d : Header) (k v : String)
    (hcanon : canonicalMIMEHeaderKey k = k) (hk : k ∉ headerKeys d) :
    hAdd d k v = d ++ [(k, [v])] := by
  rw [hAdd, hcanon]
  exact addCanon_absent d k v hk

/-- The copy loop of `copyHeaders` appends `src` to the accumulator when the
source keys are canonical, distinct, disjoint from the accumulator's keys, and
each entry has at least one value. -/
theorem foldl_addEntry_append :
    ∀ (src : Header) (d : Header),
      (∀ e ∈ src, canonicalMIMEHeaderKey e.1 = e.1) →
      (∀ e ∈ src, e.2 ≠ []) →
      (src.map Prod.fst).Nodup →
      (∀ e ∈ src, e.1 ∉ headerKeys d) →
      src.foldl (fun d e => e.2.foldl (fun d2 v => hAdd d2 e.1 v) d) d = d ++ src := by
  intro src
  induction src with
  | nil => intro d _ _ _ _; simp
  | cons e rest ih =>
    intro d hcanon hne hnd hdisj
    have hc : canonicalMIMEHeaderKey e.1 = e.1 := hcanon e (by simp)
    have hd0 : e.1 ∉ headerKeys d := hdisj e (by simp)
    obtain ⟨v, vt, hvvt⟩ : ∃ v vt, e.2 = v :: vt := by
      cases hv : e.2 with
      | nil => exact absurd hv (hne e (by simp))
      | cons v vt => exact ⟨v, vt, rfl⟩
    have h1 : e.2.foldl (fun d2 v => hAdd d2 e.1 v) d = d ++ [(e.1, e.2)] := by
      rw [hvvt, List.foldl_cons, hAdd_nonmem d e.1 v hc hd0,
        foldl_hAdd_values vt d e.1 [v] hc hd0]
      simp
    simp only [List.foldl_cons]
    rw [h1]
    have hrest : rest.foldl (fun d e => e.2.foldl (fun d2 v => hAdd d2 e.1 v) d)
        (d ++ [(e.1, e.2)]) = (d ++ [(e.1, e.2)]) ++ rest := by
      apply ih
      · intro e2 he2; exact hcanon e2 (by simp [he2])
      · intro e2 he2; exact hne e2 (by simp [he2])
      · exact (List.nodup_cons.mp (by simpa using hnd)).2
      · intro e2 he2
        have hkey : e2.1 ≠ e.1 := by
          have hnotin : e.1 ∉ rest.map Prod.fst :=
            (List.nodup_cons.mp (by simpa using hnd)).1
          intro hcontra
          exact hnotin (hcontra ▸ List.mem_map.mpr ⟨e2, he2, rfl⟩)
        have hd2 : e2.1 ∉ headerKeys d := hdisj e2 (by simp [he2])
        simp only [headerKeys, List.map_append, List.mem_append, List.map_cons,
          List.map_nil, List.mem_cons, List.not_mem_nil, or_false]
        simp only [headerKeys] at hd2
        rintro (h | h)
        · exact hd2 h
        · exact hkey h
    rw [hrest]
    simp

/-- `copyHeaders` replaces the destination with the source whenever both maps
have canonical keys, the source keys are distinct, and every source entry has
at least one value — the conditions `net/http` itself maintains. -/
theorem copyHeaders_canonical (dst src : Header)
    (hdst : ∀ e ∈ dst, canonicalMIMEHeaderKey e.1 = e.1)
    (hsrc : ∀ e ∈ src, canonicalMIMEHeaderKey e.1 = e.1)
    (hnodup : (src.map Prod.fst).Nodup)
    (hne : ∀ e ∈ src, e.2 ≠ []) :
    copyHeaders dst src = src := by
  unfold copyHeaders
  have hclear : (headerKeys dst).foldl hDel dst = [] := by
    apply foldl_hDel_eq_nil
    · intro k hk
      simp only [headerKeys, List.mem_map] at hk
      obtain ⟨e, he, rfl⟩ := hk
      exact hdst e he
    · intro e he
      simp only [headerKeys, List.mem_map]
      exact ⟨e, he, rfl⟩
  rw [hclear]
  have := foldl_addEntry_append src [] hsrc hne hnodup (by simp [headerKeys])
  simpa using this

/-- C10 (amended): after `copyHeaders(dst, src)` the destination equals the
source — every prior entry deleted, every source key present with its full
value list in order, independent of the prior contents — provided all field
names are in canonical MIME form, the source keys are distinct, and every
source entry carries at least one value.  Without the canonical-form proviso
the claim fails (see the counterexample): `Del` canonicalizes the key it is
given, so a non-canonical destination key survives the clearing loop. -/
theorem C10_copyHeaders_amended (dst src : Header)
    (hdst : ∀ e ∈ dst, canonicalMIMEHeaderKey e.1 = e.1)
    (hsrc : ∀ e ∈ src, canonicalMIMEHeaderKey e.1 = e.1)
    (hnodup : (src.map Prod.fst).Nodup)
    (hne : ∀ e ∈ src, e.2 ≠ []) :
    copyHeaders dst src = src ∧ copyHeaders dst src = copyHeaders [] src := by
  have h1 := copyHeaders_canonical dst src hdst hsrc hnodup hne
  have h2 := copyHeaders_canonical [] src (by simp) hsrc hnodup hne
  exact ⟨h1, h1.trans h2.symm⟩

/-- Witness for the amended C10 on concrete canonical headers. -/
theorem C10_witness :
    copyHeaders [("X-Old", ["1"])] [("X-Foo", ["a", "b"]), ("X-Bar", ["c"])]
      = [("X-Foo", ["a", "b"]), ("X-Bar", ["c"])] :=
  (C10_copyHeaders_amended [("X-Old", ["1"])] [("X-Foo", ["a", "b"]), ("X-Bar", ["c"])]
    (by decide) (by decide) (by decide) (by decide)).1

-- Section 6: the reserved error header (C9) ----------------------------------

/-- The reserved header name; the unit test `TestClearsErrorHeader` checks it
never reaches the client. -/
def errorHeader : String := "X-Smokescreen-Error"

/-- Modelled from the spec: the response filter of the proxy core (whose
implementation file is not in the sample; `TestClearsErrorHeader` exercises
it) deletes the reserved `X-Smokescreen-Error` header from every upstream
response before it is copied to the client, leaving the other headers
untouched. -/
def stripErrorHeader (h : Header) : Header := hDel h errorHeader

theorem headerLookup_filter_self (h : Header) (k : String) :
    headerLookup (h.filter fun e => !(e.1 == k)) k = none := by
  induction h with
  | nil => rfl
  | cons e rest ih =>
    by_cases he : e.1 = k
    · simpa [List.filter_cons, he] using ih
    · simpa [List.filter_cons, he, headerLookup] using ih

theorem headerLookup_filter_other (h : Header) (k k2 : String) (hne : k2 ≠ k) :
    headerLookup (h.filter fun e => !(e.1 == k)) k2 = headerLookup h k2 := by
  induction h with
  | nil => rfl
  | cons e rest ih =>
    by_cases hek : e.1 = k
    · have hek2 : ¬ e.1 = k2 := by rw [hek]; exact fun hc => hne hc.symm
      rw [List.filter_cons_of_neg (by simp [hek])]
      simp only [headerLookup, if_neg hek2]
      exact ih
    · rw [List.filter_cons_of_pos (by simp [hek])]
      by_cases hek2 : e.1 = k2
      · simp only [headerLookup, if_pos hek2]
      · simp only [headerLookup, if_neg hek2]
        exact ih

/-- C9: stripping removes exactly the `X-Smokescreen-Error` entries — the
result never contains that header, keeps only entries of the original
response, and looks up identically on every other header name, so the
remaining upstream headers are delivered unchanged. -/
theorem C9_error_header_stripped (h : Header) :
    stripErrorHeader h = h.filter (fun e => !(e.1 == errorHeader))
    ∧ headerLookup (stripErrorHeader h) errorHeader = none
    ∧ (∀ e ∈ stripErrorHeader h, e.1 ≠ errorHeader ∧ e ∈ h)
    ∧ (∀ k, k ≠ errorHeader →
        headerLookup (stripErrorHeader h) k = headerLookup h k) := by
  have hcanon : canonicalMIMEHeaderKey errorHeader = errorHeader := by decide
  have hfe : stripErrorHeader h = h.filter fun e => !(e.1 == errorHeader) := by
    rw [stripErrorHeader, hDel, hcanon]
  refine ⟨hfe, ?_, ?_, ?_⟩
  · rw [hfe]
    exact headerLookup_filter_self h errorHeader
  · intro e he
    rw [hfe] at he
    have hmem := List.mem_filter.mp he
    refine ⟨?_, hmem.1⟩
    have := hmem.2
    simpa using this
  · intro k hk
    rw [hfe]
    exact headerLookup_filter_other h errorHeader k hk

/-- Witness for C9: the upstream response of `TestClearsErrorHeader`, carrying
a spoofed error header and a marker header; the marker is preserved. -/
theorem C9_witness :
    headerLookup
      (stripErrorHeader [(errorHeader, ["foobar"]), ("X-Smokescreen-Test", ["yes"])])
      "X-Smokescreen-Test" = some ["yes"] :=
  ((C9_error_header_stripped
      [(errorHeader, ["foobar"]), ("X-Smokescreen-Test", ["yes"])]).2.2.2
    "X-Smokescreen-Test" (by decide)).trans (by decide)

-- Section 7: goproxy ServeHTTP target normalization (C7) ---------------------

/-- The observable outcomes of the request-normalization prologue of
`ServeHTTP` in the vendored goproxy (config_loader.go). -/
inductive ServeOutcome where
  | connectPath
  | proceed
  | respond (status : Nat)
  | panicNilError
deriving DecidableEq, Repr

/-- The request-normalization prologue of goproxy's `ServeHTTP`: `CONNECT`
requests go to the tunneling handler; a non-absolute target URL is rebuilt
from the `Host` header.  When `Host` is empty the code calls `err.Error()` on
the still-nil `err` before writing any response (`panicNilError`); when
parsing `"http://" + Host + Path` fails it writes the parse error with status
500 via `http.Error`.  `hostParseOk` abstracts the success of that
`url.Parse` call. -/
def ServeHTTP (method : String) (urlIsAbs : Bool) (host : String)
    (hostParseOk : Bool) : ServeOutcome :=
  if method == "CONNECT" then .connectPath
  else if urlIsAbs then .proceed
  else if host == "" then .panicNilError
  else if hostParseOk then .proceed
  else .respond 500

/-- C7 counterexample: for a plain request with a relative target, an
unusable `Host` does not produce status 400 — an unparseable host yields
status 500, and an empty host reaches the nil-error dereference instead of
producing any response. -/
theorem C7_counterexample :
    ServeHTTP "GET" false "" true = ServeOutcome.panicNilError
    ∧ ServeHTTP "GET" false "%" false = ServeOutcome.respond 500
    ∧ ServeHTTP "GET" false "%" false ≠ ServeOutcome.respond 400
    ∧ ServeHTTP "GET" false "" true ≠ ServeOutcome.respond 400 := by decide

/-- C7 (amended): for every plain (non-CONNECT) request whose target URL is
not absolute, an empty `Host` header makes the handler dereference a nil
error (no response is written), and an unparseable non-empty `Host` makes it
respond with HTTP status 500, not 400. -/
theorem C7_malformed_target_500 (method host : String) (hostParseOk : Bool)
    (hm : method ≠ "CONNECT") :
    ServeHTTP method false "" hostParseOk = ServeOutcome.panicNilError
    ∧ (host ≠ "" → ServeHTTP method false host false = ServeOutcome.respond 500) := by
  constructor
  · simp [ServeHTTP, hm]
  · intro hh
    simp [ServeHTTP, hm, hh]

/-- Witness for the amended C7 on concrete malformed requests. -/
theorem C7_witness :
    ServeHTTP "GET" false "" false = ServeOutcome.panicNilError
    ∧ ServeHTTP "GET" false "%" false = ServeOutcome.respond 500 :=
  ⟨(C7_malformed_target_500 "GET" "%" false (by decide)).1,
   (C7_malformed_target_500 "GET" "%" false (by decide)).2 (by decide)⟩

-- Section 8: role extraction (C8) --------------------------------------------

/-- A TLS peer certificate, reduced to the field the extractor reads. -/
structure Certificate where
  commonName : String
deriving DecidableEq, Repr

/-- `testRFRHeader` from the integration tests: the role is the single value
of the `X-Smokescreen-Role` header; zero or several values yield a
`MissingRoleError` (embedded as `Except.error`). -/
def testRFRHeader (idHeader : List String) : Except String String :=
  if idHeader.length ≠ 1 then
    Except.error ("Expected 1 header, got " ++ toString idHeader.length)
  else
    Except.ok (idHeader.headD "")

/-- `testRFRCert` from the integration tests: the role is the Common Name of
the first peer certificate; no certificate yields a `MissingRoleError`. -/
def testRFRCert (peerCertificates : List Certificate) : Except String String :=
  if peerCertificates.length = 0 then
    Except.error "client did not provide certificate"
  else
    Except.ok ((peerCertificates.headD ⟨""⟩).commonName)

/-- C8: header extraction succeeds with value `v` exactly when the header
carries the single value `v`, and errors whenever the header is absent or
repeated; certificate extraction errors without a peer certificate and
otherwise returns the first certificate's Common Name. -/
theorem C8_role_extraction :
    (∀ (vs : List String) (v : String), testRFRHeader vs = Except.ok v ↔ vs = [v])
    ∧ (∀ vs : List String, vs.length ≠ 1 →
        testRFRHeader vs = Except.error ("Expected 1 header, got " ++ toString vs.length))
    ∧ testRFRCert [] = Except.error "client did not provide certificate"
    ∧ (∀ (c : Certificate) (cs : List Certificate),
        testRFRCert (c :: cs) = Except.ok c.commonName) := by
  refine ⟨?_, ?_, rfl, ?_⟩
  · intro vs v
    match vs with
    | [] => simp [testRFRHeader]
    | [x] => simp [testRFRHeader]
    | x :: y :: t =>
      have hlen : (x :: y :: t).length ≠ 1 := by simp
      simp [testRFRHeader, hlen]
  · intro vs h
    simp [testRFRHeader, h]
  · intro c cs
    simp [testRFRCert]

/-- Witness for C8 on the role headers and certificates the integration tests
use. -/
theorem C8_witness :
    testRFRHeader ["egressneedingservice-open"] = Except.ok "egressneedingservice-open"
    ∧ testRFRHeader [] = Except.error "Expected 1 header, got 0"
    ∧ testRFRCert [⟨"egressneedingservice-enforce"⟩]
        = Except.ok "egressneedingservice-enforce" :=
  ⟨(C8_role_extraction.1 ["egressneedingservice-open"] "egressneedingservice-open").mpr rfl,
   (C8_role_extraction.2.1 [] (by decide)).trans (by rfl),
   C8_role_extraction.2.2.2 ⟨"egressneedingservice-enforce"⟩ []⟩

-- Section 9: ProxyCore canonical decision record (C1) ------------------------

/-- The canonical decision log record, with the fields `conformResult`
inspects: `allow`, `proxy_type`, `requested_host`, `role` and the decision
reason. -/
structure Decision where
  allow : Bool
  proxyType : String
  requestedHost : String
  role : String
  decisionReason : String
deriving DecidableEq, Repr, Inhabited

/-- A proxied request as the core sees it once the collaborators have spoken:
its shape (`CONNECT` or plain), the client-presented host and port, the
extracted role, the ACL engine's verdict, and whether safe resolution
succeeded. -/
structure ProxyRequest where
  isConnect : Bool
  host : String
  port : Nat
  role : String
  aclAllow : Bool
  aclReason : String
  resolveOk : Bool
deriving DecidableEq, Repr

/-- Modelled from the spec: ProxyCore's request lifecycle (smokescreen.go is
not in the sample; its integration test `conformResult` is).  An ACL deny or
a resolution failure answers 503 with a canonical decision record carrying
`allow=false`; an allowed, resolved request answers 200 with `allow=true`.
Exactly one record is emitted on every path; its `proxy_type` is "connect"
for CONNECT requests and "http" otherwise, and its `requested_host` is the
client-presented "host:port". -/
def handleRequest (req : ProxyRequest) : Nat × List Decision :=
  let ptype := if req.isConnect then "connect" else "http"
  let rhost := req.host ++ ":" ++ toString req.port
  if req.aclAllow = false then
    (503, [{ allow := false, proxyType := ptype, requestedHost := rhost,
             role := req.role, decisionReason := req.aclReason }])
  else if req.resolveOk = false then
    (503, [{ allow := false, proxyType := ptype, requestedHost := rhost,
             role := req.role, decisionReason := "resolution failure" }])
  else
    (200, [{ allow := true, proxyType := ptype, requestedHost := rhost,
             role := req.role, decisionReason := req.aclReason }])

/-- C1: every proxied request emits exactly one canonical decision record;
its `proxy_type` is "connect" exactly for CONNECT requests, its
`requested_host` is the client-presented "host:port", its `role` is the
extracted role, and `allow` is true exactly when the HTTP outcome is a 2xx
status. -/
theorem C1_canonical_decision (req : ProxyRequest) :
    (handleRequest req).2.length = 1
    ∧ ∀ d ∈ (handleRequest req).2,
        d.proxyType = (if req.isConnect then "connect" else "http")
        ∧ d.requestedHost = req.host ++ ":" ++ toString req.port
        ∧ d.role = req.role
        ∧ (d.allow = true ↔ 200 ≤ (handleRequest req).1 ∧ (handleRequest req).1 < 300) := by
  obtain ⟨ic, host, port, role, acl, reason, res⟩ := req
  cases acl <;> cases res <;> simp [handleRequest]

/-- Witness for C1: the CONNECT deny scenario of the integration tests emits
a record whose requested host is the client-presented "host:port". -/
theorem C1_witness :
    ((handleRequest ⟨true, "localhost", 8080, "egressneedingservice-enforce",
        false, "acl_deny", true⟩).2.headD default).requestedHost = "localhost:8080" :=
  (((C1_canonical_decision ⟨true, "localhost", 8080, "egressneedingservice-enforce",
        false, "acl_deny", true⟩).2 _ (by decide)).2.1).trans (by rfl)

-- Section 10: denial responses (C6) ------------------------------------------

/-- An HTTP response as the client observes it: status code and body. -/
structure HttpResponse where
  status : Nat
  body : String
deriving DecidableEq, Repr

/-- The denial paths of plain-HTTP proxying. -/
inductive DenialKind where
  | aclDeny
  | resolutionFailure
  | upstreamError
deriving DecidableEq, Repr

/-- The reason phrase of each denial path. -/
def denialReason : DenialKind → String
  | .aclDeny => "blocked by ACL"
  | .resolutionFailure => "could not resolve address"
  | .upstreamError => "upstream connection failed"

/-- Modelled from the spec: the denial-response writer of the proxy core
(smokescreen.go is not in the sample).  Every plain-HTTP denial path — ACL
deny, resolution failure, upstream error — answers a complete HTTP response
with status 503 whose body names the host, says the request was denied, and
appends the operator-configured extra-context phrase
(`additional-error-message-on-deny`, "moar ctx" in the tests). -/
def denialResponse (host extraCtx : String) (kind : DenialKind) : HttpResponse :=
  { status := 503
    body := "Egress proxying to host " ++ host ++ " denied: "
      ++ denialReason kind ++ " " ++ extraCtx }

/-- Substring containment on strings, stated over their character data. -/
def strContainsSub (hay nd : String) : Prop :=
  ∃ s t, hay.data = s ++ nd.data ++ t

/-- C6: every denial path produces a well-formed HTTP response with status
503 whose body contains the literal token "denied" and the operator's
extra-context phrase. -/
theorem C6_denial_response (host extraCtx : String) (kind : DenialKind) :
    (denialResponse host extraCtx kind).status = 503
    ∧ strContainsSub (denialResponse host extraCtx kind).body "denied"
    ∧ strContainsSub (denialResponse host extraCtx kind).body extraCtx := by
  refine ⟨rfl, ?_, ?_⟩
  · refine ⟨"Egress proxying to host ".data ++ host.data ++ " ".data,
      ": ".data ++ (denialReason kind).data ++ " ".data ++ extraCtx.data, ?_⟩
    simp [denialResponse, String.data_append, List.append_assoc]
  · refine ⟨"Egress proxying to host ".data ++ host.data ++ " denied: ".data
        ++ (denialReason kind).data ++ " ".data, [], ?_⟩
    simp [denialResponse, String.data_append, List.append_assoc]

end Smokescreen
